import Mathlib

/-!
Verification of the PySceneDetect event-driven detection and interval-algebra
core against its natural-language specification.

Shallow embedding conventions:
* `FrameTimecode` values are represented by their integer frame index (`Int`);
  all arithmetic and comparisons in the embedded code act on frame indices,
  matching the specification's Timebase ("an integer frame index plus the
  frame rate"; a single fixed frame rate is assumed throughout).
* Floating-point metric values (frame scores, pixel averages, ratios) are
  represented by rationals (`ℚ`); only arithmetic actually performed by the
  source is modelled.
* Python exceptions (`ValueError`, `AttributeError`, `TypeError`) are
  modelled with `Except String`.
* Frame images are an abstract type parameter; the numeric reductions that
  OpenCV/numpy perform on them (per-channel mean deltas, mean intensity) are
  passed in as function parameters.
-/

/-- A scene, `(start, end)` pair of frame timecodes
(`scenedetect/scene_list.py`, class `Scene`). -/
abbrev Scene := Int × Int

/-- The `SceneList` invariant stated in `scenedetect/scene_list.py`
(comment above `class SceneList`):
`scenes[n].start < scenes[n].end`, `scenes[n].start < scenes[n+1].start`,
`scenes[n].end <= scenes[n+1].start`. -/
def validSceneListB : List Scene → Bool
  | [] => true
  | [s] => decide (s.1 < s.2)
  | s :: t :: rest =>
    decide (s.1 < s.2) && decide (s.1 < t.1) && decide (s.2 ≤ t.1) &&
      validSceneListB (t :: rest)

/-- Propositional form of the `SceneList` invariant. -/
def ValidSceneList (scenes : List Scene) : Prop :=
  validSceneListB scenes = true

instance : DecidablePred ValidSceneList := fun scenes =>
  inferInstanceAs (Decidable (validSceneListB scenes = true))


/-- Error message raised by `drop_short_scenes` / `merge_short_scenes` for a
negative `min_scene_len`. -/
def errMinSceneLen : String :=
  "min_scene_len is out of range! Value must be 0 or greater."

/-- Error message raised by `merge_short_scenes` for a negative `merge_len`. -/
def errMergeLen : String :=
  "merge_len is out of range!"

/-- Source: `SceneList.drop_short_scenes` (`scenedetect/scene_list.py`, lines 112-123):
raises `ValueError` if `min_scene_len < 0`; returns a clone unchanged if
`min_scene_len <= 1`; otherwise keeps exactly the scenes with
`(scene[1] - scene[0]) + 1 >= min_scene_len`. -/
def drop_short_scenes (min_scene_len : Int) (scenes : List Scene) :
    Except String (List Scene) :=
  if min_scene_len < 0 then .error errMinSceneLen
  else if min_scene_len ≤ 1 then .ok scenes
  else .ok (scenes.filter (fun scene => min_scene_len ≤ (scene.2 - scene.1) + 1))

/-- Helper mirroring the iteration of `merge_short_scenes` over `self`: the
first component is the `scene_list` result being built, the second component
is the final contents of `self` (which the source mutates in place when
merging a short scene into its successor, line 172). `consSelf` records that
the element read at the current index stays at its position in `self`. -/
def consSelf (s : Scene) (r : List Scene × List Scene) : List Scene × List Scene :=
  (r.1, s :: r.2)

/-- Python truthiness-and-comparison `scene_list and
(scene.start - scene_list[-1].end) <= merge_len` (line 167): the result
`scene_list` is non-empty and the gap from its last scene is small enough.
`accRev` holds `scene_list` in reverse, so its head is `scene_list[-1]`. -/
def predClose (mergeLen : Int) (accRev : List Scene) (scene : Scene) : Bool :=
  match accRev with
  | [] => false
  | p :: _ => decide (scene.1 - p.2 ≤ mergeLen)

/-- Source: `scene_list[-1] = Scene(scene_list[-1].start, scene.end)` (line 168),
on the reversed accumulator. -/
def predMerge (accRev : List Scene) (scene : Scene) : List Scene :=
  match accRev with
  | [] => accRev
  | p :: ps => (p.1, scene.2) :: ps

/-- Source: `next_scene and (next_scene[0] - scene[1]) <= merge_len` (line 171):
a next scene exists and the gap to it is small enough. -/
def succClose (mergeLen : Int) (scene : Scene) (rest : List Scene) : Bool :=
  match rest with
  | [] => false
  | n :: _ => decide (n.1 - scene.2 ≤ mergeLen)

/-- Source: `self[i + 1] = Scene(scene[0], next_scene[1])` (line 172): the in-place
overwrite of the successor inside the receiver. -/
def succMerge (scene : Scene) (rest : List Scene) : List Scene :=
  match rest with
  | [] => rest
  | n :: ns => (scene.1, n.2) :: ns

/-- The scan loop of `SceneList.merge_short_scenes`
(`scenedetect/scene_list.py`, lines 160-174).  `accRev` is the `scene_list`
accumulator in reverse order.  For each scene: if it is long enough it is
appended; otherwise the predecessor (`scene_list[-1]`) is tried first;
failing that the successor is tried (overwriting `self[i + 1]` in place with
the span of both, so the merged scene is re-examined on the next iteration);
failing both the scene is dropped from the result. -/
def mergeGo (minLen mergeLen : Int) (accRev : List Scene) :
    List Scene → List Scene × List Scene
  | [] => (accRev.reverse, [])
  | scene :: rest =>
    if minLen ≤ scene.2 - scene.1 then
      consSelf scene (mergeGo minLen mergeLen (scene :: accRev) rest)
    else if predClose mergeLen accRev scene then
      consSelf scene (mergeGo minLen mergeLen (predMerge accRev scene) rest)
    else if succClose mergeLen scene rest then
      consSelf scene (mergeGo minLen mergeLen accRev (succMerge scene rest))
    else
      consSelf scene (mergeGo minLen mergeLen accRev rest)
termination_by l => l.length
decreasing_by
  · simp
  · simp
  · rw [succMerge.eq_def]; split <;> simp
  · simp

/-- Source: `SceneList.merge_short_scenes` (`scenedetect/scene_list.py`, lines
125-174), with the only implemented strategy `MergeStrategy.PREFER_PREDECESSOR`
fixed.  Returns the pair (result `scene_list`, final contents of the receiver
`self`, which the scan may have mutated in place). -/
def merge_short_scenes (minLen mergeLen : Int) (scenes : List Scene) :
    Except String (List Scene × List Scene) :=
  if minLen < 0 then .error errMinSceneLen
  else if mergeLen < 0 then .error errMergeLen
  else .ok (mergeGo minLen mergeLen [] scenes)

/-- The merge order as the SPECIFICATION describes it (spec §4.4 `merge`):
"a scene shorter than `min_len` first attempts to absorb its immediate
successor if the gap to it is `<= max_dist` (producing a new scene spanning
both, removing the successor, and re-examining the merged result at the same
position); failing that, it attempts to absorb its immediate predecessor
under the same distance rule; failing both, it is left unchanged".
This definition follows the spec's words (successor first, unmergeable
scenes kept) and exists solely to be compared with `merge_short_scenes`. -/
def mergeSpecGo (minLen maxDist : Int) (accRev : List Scene) :
    List Scene → List Scene
  | [] => accRev.reverse
  | s :: rest =>
    if minLen ≤ s.2 - s.1 then
      mergeSpecGo minLen maxDist (s :: accRev) rest
    else if succClose maxDist s rest then
      mergeSpecGo minLen maxDist accRev (succMerge s rest)
    else if predClose maxDist accRev s then
      mergeSpecGo minLen maxDist (predMerge accRev s) rest
    else
      mergeSpecGo minLen maxDist (s :: accRev) rest
termination_by l => l.length
decreasing_by
  · simp
  · rw [succMerge.eq_def]; split <;> simp
  · simp
  · simp

/-- Whole-list version of `mergeSpecGo`: the merge operation exactly as
claim C1 / spec §4.4 word it. -/
def mergeSpecOrder (minLen maxDist : Int) (scenes : List Scene) : List Scene :=
  mergeSpecGo minLen maxDist [] scenes

/-! ## Metric cache (`StatsManager`) and the detector interface -/

/-- The per-frame metric cache (`StatsManager`): a list of
`(frame, metric name, value)` entries.  Writes prepend entries, and lookups
scan from the head, so the newest write for a key wins (the observable
behaviour of the dict-backed upsert). -/
abbrev Cache := List (Int × String × ℚ)

/-- Source: `StatsManager.metrics_exist(frame_num, metric_keys)`: true only if every
named metric has a stored value for that frame. -/
def metricsExist (c : Cache) (f : Int) (keys : List String) : Bool :=
  keys.all (fun k => c.any (fun e => e.1 == f && e.2.1 == k))

/-- Source: `StatsManager.get_metrics(frame_num, [key])[0]` for a single key. -/
def getMetric (c : Cache) (f : Int) (k : String) : Option ℚ :=
  (c.find? (fun e => e.1 == f && e.2.1 == k)).map (fun e => e.2.2)

/-- Source: `StatsManager.set_metrics(frame_num, dict)`: upsert of several metrics
for one frame, modelled by prepending the new entries. -/
def setMetrics (c : Cache) (f : Int) (kvs : List (String × ℚ)) : Cache :=
  (kvs.map (fun kv => (f, kv.1, kv.2))) ++ c

/-- Source: `ContentDetector.FRAME_SCORE_KEY`. -/
def FRAME_SCORE_KEY : String := "content_val"

/-- Source: `ContentDetector.DELTA_H_KEY`. -/
def DELTA_H_KEY : String := "delta_hue"

/-- Source: `ContentDetector.DELTA_S_KEY`. -/
def DELTA_S_KEY : String := "delta_sat"

/-- Source: `ContentDetector.DELTA_V_KEY`. -/
def DELTA_V_KEY : String := "delta_lum"

/-- Source: `ContentDetector.METRIC_KEYS`. -/
def METRIC_KEYS : List String := [FRAME_SCORE_KEY, DELTA_H_KEY, DELTA_S_KEY, DELTA_V_KEY]

/-- The `AttributeError` raised when `None.metrics_exist` is evaluated. -/
def errNoneMetricsExist : String :=
  "AttributeError: NoneType object has no attribute metrics_exist"

/-- Source: `SceneDetector.is_processing_required` (`scenedetect/scene_detector.py`,
lines 90-100), exactly as the source writes it:
`return not self.metrics or self.stats_manager or (not
self.stats_manager.metrics_exist(timecode.frame_num, self.metrics))`.
Python short-circuit `or` returns the first truthy operand, so with a
non-empty metric list the expression yields the bound `StatsManager` object
itself (truthy, hence `true` as a boolean) without ever consulting
`metrics_exist`; with no stats manager bound the third operand dereferences
`None` and raises `AttributeError`. -/
def is_processing_required (metrics : List String) (sm : Option Cache)
    (frameNum : Int) : Except String Bool :=
  if metrics.isEmpty then .ok true
  else
    match sm with
    | some _ => .ok true
    | none => .error errNoneMetricsExist

/-! ## ContentDetector -/

/-- State of a `ContentDetector`: the bound `StatsManager` (if any),
`_last_hsv` (`none` = Python `None`; `some none` = the `True` sentinel;
`some (some img)` = a stored frame), and `_last_scene_cut`. -/
structure CDState (Img : Type) where
  sm : Option Cache
  lastHsv : Option (Option Img)
  lastSceneCut : Option Int

/-- Source: `ContentDetector.calculate_frame_score` (lines 80-100).  The numpy
per-channel mean absolute differences are abstracted by the parameter
`deltas : Img → Img → ℚ × ℚ × ℚ` returning
`(delta_hue, delta_sat, delta_lum)`; the function averages them, stores all
four metrics when a stats manager is bound, and returns `delta_content`
(or `delta_lum` when `luma_only` is set). -/
def calculate_frame_score {Img : Type} (deltas : Img → Img → ℚ × ℚ × ℚ)
    (lumaOnly : Bool) (sm : Option Cache) (frameNum : Int) (curr last : Img) :
    Option Cache × ℚ :=
  let d := deltas curr last
  let deltaContent := (d.1 + d.2.1 + d.2.2) / 3
  let sm' := sm.map (fun c => setMetrics c frameNum
    [(FRAME_SCORE_KEY, deltaContent), (DELTA_H_KEY, d.1),
      (DELTA_S_KEY, d.2.1), (DELTA_V_KEY, d.2.2)])
  (sm', if !lumaOnly then deltaContent else d.2.2)

/-- Source: `ContentDetector._get_cached_score` (lines 102-108). -/
def getCachedScore (lumaOnly : Bool) (sm : Option Cache) (frameNum : Int) :
    Option ℚ :=
  let key := if lumaOnly then DELTA_V_KEY else FRAME_SCORE_KEY
  match sm with
  | some c =>
    if metricsExist c frameNum [key] then getMetric c frameNum key else none
  | none => none

/-- The `AttributeError` raised by `frame_img.copy()` when `frame_img` is
`None`. -/
def errNoneCopy : String :=
  "AttributeError: NoneType object has no attribute copy"

/-- The error raised by `cv2.cvtColor(frame_img, ...)` when `frame_img` is
`None`. -/
def errNoneCvtColor : String :=
  "TypeError: cvtColor expected an image, got None"

/-- The error raised when `calculate_frame_score` iterates over the `True`
sentinel stored in `_last_hsv`. -/
def errSentinelScore : String :=
  "TypeError: calculate_frame_score received the True sentinel"

/-- The final assignment to `_last_hsv` (lines 164-170, which also
supersedes the assignments at lines 135-145 made under the same condition):
the `True` sentinel if the stats manager already has every metric for the
NEXT frame, otherwise a copy of the current frame image (raising
`AttributeError` when the image is `None`). -/
def finalLastHsv {Img : Type} (sm : Option Cache) (frameNum : Int)
    (img : Option Img) : Except String (Option (Option Img)) :=
  match sm with
  | some c =>
    if metricsExist c (frameNum + 1) METRIC_KEYS then .ok (some none)
    else
      match img with
      | some i => .ok (some (some i))
      | none => .error errNoneCopy
  | none =>
    match img with
    | some i => .ok (some (some i))
    | none => .error errNoneCopy

/-- Source: `ContentDetector.process_frame` (`content_detector.py`, lines 110-172).
Returns the updated state and the list of emitted `CUT` events (as the frame
numbers they carry).  Structure, in source order: update `_last_scene_cut`
(reset to the current frame if unset or in the future); on the first frame
only record `_last_hsv`; otherwise obtain the frame score from the cache or
by `calculate_frame_score` (which may write metrics), then emit a cut iff
`frame_score >= threshold` and `frame_num - last_scene_cut >=
min_scene_len`; finally reassign `_last_hsv`. -/
def ContentDetector.processFrame {Img : Type} (deltas : Img → Img → ℚ × ℚ × ℚ)
    (threshold : ℚ) (minSceneLen : Int) (lumaOnly : Bool)
    (st : CDState Img) (frameNum : Int) (img : Option Img) :
    Except String (CDState Img × List Int) :=
  let lastCut : Int :=
    match st.lastSceneCut with
    | none => frameNum
    | some c => if c > frameNum then frameNum else c
  match st.lastHsv with
  | none =>
    match finalLastHsv st.sm frameNum img with
    | .error e => .error e
    | .ok lh => .ok (⟨st.sm, lh, some lastCut⟩, [])
  | some lastF =>
    let step : Except String (Option Cache × ℚ) :=
      match getCachedScore lumaOnly st.sm frameNum with
      | some s => .ok (st.sm, s)
      | none =>
        match img, lastF with
        | none, _ => .error errNoneCvtColor
        | some _, none => .error errSentinelScore
        | some curr, some lastImg =>
          .ok (calculate_frame_score deltas lumaOnly st.sm frameNum curr lastImg)
    match step with
    | .error e => .error e
    | .ok (sm', s) =>
      let isCut : Bool := decide (s ≥ threshold) && decide (frameNum - lastCut ≥ minSceneLen)
      match finalLastHsv sm' frameNum img with
      | .error e => .error e
      | .ok lh =>
        .ok (⟨sm', lh, some (if isCut then frameNum else lastCut)⟩,
          if isCut then [frameNum] else [])

/-- Drives `ContentDetector.process_frame` once per frame in increasing
time order (the detector interface contract, spec §4.2), collecting the
emitted events.  Frame images are always supplied. -/
def ContentDetector.run {Img : Type} (deltas : Img → Img → ℚ × ℚ × ℚ)
    (threshold : ℚ) (minSceneLen : Int) (lumaOnly : Bool) :
    CDState Img → List (Int × Img) → Except String (CDState Img × List Int)
  | st, [] => .ok (st, [])
  | st, (t, i) :: fs =>
    match ContentDetector.processFrame deltas threshold minSceneLen lumaOnly st t (some i) with
    | .error e => .error e
    | .ok (st', evs) =>
      match ContentDetector.run deltas threshold minSceneLen lumaOnly st' fs with
      | .error e => .error e
      | .ok (stF, rest) => .ok (stF, evs ++ rest)

/-! ## Gated cut emission -/

/-- The greedy minimum-distance cut gate shared by `ContentDetector`
(lines 156-162) and `AdaptiveDetector.post_process` (lines 181-190): scan
`(frame, candidate)` pairs in increasing frame order; a candidate frame is
emitted iff the distance from the reference point `last` is at least
`min_scene_len` (or there is no reference point), and an emitted frame
becomes the new reference point. -/
def gateOpen (minSceneLen : Int) (last : Option Int) (f : Int) : Bool :=
  match last with
  | none => true
  | some g => decide (f - g ≥ minSceneLen)

def gatedScan (minSceneLen : Int) : Option Int → List (Int × Bool) → List Int
  | _, [] => []
  | last, (f, c) :: fs =>
    if c && gateOpen minSceneLen last f then
      f :: gatedScan minSceneLen (some f) fs
    else
      gatedScan minSceneLen last fs

/-- The last element of `cuts` that lies strictly before frame `f`. -/
def lastBefore (f : Int) : List Int → Option Int
  | [] => none
  | g :: gs =>
    if g < f then
      match lastBefore f gs with
      | some h => some h
      | none => some g
    else lastBefore f gs

/-- Gate predicate: "the minimum-distance gating since the last emitted cut is satisfied at
`f`": the distance from the last cut in `cuts` before `f` (or from the
initial reference point `l0` when no cut precedes `f`) is at least
`min_scene_len`. -/
def gateFrom (minSceneLen : Int) (l0 : Option Int) (cuts : List Int) (f : Int) :
    Prop :=
  match lastBefore f cuts with
  | some g => f - g ≥ minSceneLen
  | none => ∀ g, l0 = some g → f - g ≥ minSceneLen

/-- The frame score `ContentDetector.calculate_frame_score` returns:
the mean of the three channel deltas, or the luma delta alone. -/
def scoreOf {Img : Type} (deltas : Img → Img → ℚ × ℚ × ℚ) (lumaOnly : Bool)
    (curr last : Img) : ℚ :=
  let d := deltas curr last
  if !lumaOnly then (d.1 + d.2.1 + d.2.2) / 3 else d.2.2

/-- The per-frame cut candidates of a content-detector run: frame `t` is a
candidate iff the score between its image and the previous image is at or
above the threshold.  The first processed frame has no previous image and is
never a candidate. -/
def scoredCands {Img : Type} (deltas : Img → Img → ℚ × ℚ × ℚ)
    (lumaOnly : Bool) (threshold : ℚ) :
    Img → List (Int × Img) → List (Int × Bool)
  | _, [] => []
  | prev, (t, i) :: fs =>
    (t, decide (scoreOf deltas lumaOnly i prev ≥ threshold)) ::
      scoredCands deltas lumaOnly threshold i fs

/-- Claim C4's cut rule, word for word: a cut at every frame whose score is
at or above the threshold, gated by `min_scene_len` since the previously
emitted cut, with the FIRST cut always allowed (no initial reference
point). -/
def claimContentCuts {Img : Type} (deltas : Img → Img → ℚ × ℚ × ℚ)
    (lumaOnly : Bool) (threshold : ℚ) (minSceneLen : Int) :
    List (Int × Img) → List Int
  | [] => []
  | (_, i0) :: rest => gatedScan minSceneLen none (scoredCands deltas lumaOnly threshold i0 rest)

/-- The amended cut rule: identical, except that before any cut is emitted
the gate measures the distance from the FIRST PROCESSED FRAME (the start of
processing), so the first cut is not exempt from the gate. -/
def amendedContentCuts {Img : Type} (deltas : Img → Img → ℚ × ℚ × ℚ)
    (lumaOnly : Bool) (threshold : ℚ) (minSceneLen : Int) :
    List (Int × Img) → List Int
  | [] => []
  | (t0, i0) :: rest => gatedScan minSceneLen (some t0) (scoredCands deltas lumaOnly threshold i0 rest)
/-! ## ThresholdDetector -/

/-- Source: `EventType` (`scenedetect/scene_detector.py`, lines 46-56). -/
inductive EventType
  | CUT
  | IN
  | OUT
deriving DecidableEq

/-- State of a `ThresholdDetector`: `_last_frame_avg`. -/
structure TDState where
  lastFrameAvg : Option ℚ

/-- Source: `ThresholdDetector.process_frame` (`threshold_detector.py`, lines
117-142) with no stats manager bound (the cache branches disabled): `avg`
abstracts `compute_frame_average(frame_img)`, the mean 8-bit pixel
intensity.  Emits `IN` on a rising crossing of the threshold, `OUT` on a
falling crossing, nothing on the first frame. -/
def ThresholdDetector.processFrame (threshold : Int) (st : TDState)
    (frameNum : Int) (avg : ℚ) : TDState × List (EventType × Int) :=
  let lastFrameAvg := st.lastFrameAvg
  let st' : TDState := ⟨some avg⟩
  match lastFrameAvg with
  | none => (st', [])
  | some lastAvg =>
    if lastAvg < (threshold : ℚ) ∧ avg ≥ (threshold : ℚ) then
      (st', [(EventType.IN, frameNum)])
    else if lastAvg ≥ (threshold : ℚ) ∧ avg < (threshold : ℚ) then
      (st', [(EventType.OUT, frameNum)])
    else (st', [])

/-- Drives `ThresholdDetector.process_frame` once per frame in order,
collecting the emitted events. -/
def ThresholdDetector.run (threshold : Int) :
    TDState → List (Int × ℚ) → TDState × List (EventType × Int)
  | st, [] => (st, [])
  | st, (t, avg) :: fs =>
    let r := ThresholdDetector.processFrame threshold st t avg
    let rest := ThresholdDetector.run threshold r.1 fs
    (rest.1, r.2 ++ rest.2)

/-- The event (if any) claim C7 assigns to one consecutive frame pair:
`IN` when the previous mean intensity is below the threshold and the current
one at or above it, `OUT` in the opposite case. -/
def crossingEvent (threshold : Int) (prev curr : Int × ℚ) :
    List (EventType × Int) :=
  if prev.2 < (threshold : ℚ) ∧ curr.2 ≥ (threshold : ℚ) then
    [(EventType.IN, curr.1)]
  else if prev.2 ≥ (threshold : ℚ) ∧ curr.2 < (threshold : ℚ) then
    [(EventType.OUT, curr.1)]
  else []

/-- Claim C7's event rule over a whole frame sequence: one event per
threshold crossing of consecutive frames, in order; no event for the first
frame; no minimum-distance gating. -/
def crossingEvents (threshold : Int) : List (Int × ℚ) → List (EventType × Int)
  | [] => []
  | [_] => []
  | p :: q :: fs => crossingEvent threshold p q ++ crossingEvents threshold (q :: fs)

/-! ## AdaptiveDetector -/

/-- Python `range(a, b)` over integers. -/
def intRange (a b : Int) : List Int :=
  (List.range (b - a).toNat).map (fun k : Nat => a + (k : Int))

/-- The window offsets `range(-window_width, window_width + 1)` with `0`
skipped (`adaptive_detector.py`, lines 156-161). -/
def windowOffsets (w : Int) : List Int :=
  (intRange (-w) (w + 1)).filter (fun o => o ≠ 0)

/-- Source: `denominator` after line 163: the sum of `content_val` over the
surrounding window divided by `2.0 * window_width`.  `val` is the per-frame
`content_val` metric read back from the stats manager
(`get_content_val`). -/
def windowMean (val : Int → ℚ) (w : Int) (f : Int) : ℚ :=
  (((windowOffsets w).map (fun o => val (f + o))).sum) / (2 * (w : ℚ))

/-- Source: `denominator_is_zero = abs(denominator) < 0.00001` (line 164). -/
def denomIsZero (val : Int → ℚ) (w : Int) (f : Int) : Bool :=
  decide (|windowMean val w f| < 1 / 100000)

/-- Source: `adaptive_ratio` (lines 166-174): the frame's score divided by the
window mean; if the denominator is numerically zero, the sentinel `255.0`
when the score still reaches `min_delta_hsv`, else `0.0`. -/
def adaptiveRatioOf (val : Int → ℚ) (w : Int) (minDelta : ℚ) (f : Int) : ℚ :=
  if !(denomIsZero val w f) then val f / windowMean val w f
  else if val f ≥ minDelta then 255
  else 0

/-- The interior frames
`range(start_frame + window_width + 1, end_frame - window_width)`
(lines 152 and 181). -/
def interiorFrames (startF endF w : Int) : List Int :=
  intRange (startF + w + 1) (endF - w)

/-- The cut pass of `AdaptiveDetector.post_process` (lines 139-192): every
interior frame whose stored `adaptive_ratio` is at or above
`adaptive_threshold` AND whose `content_val` is at or above `min_delta_hsv`
is a candidate; candidates pass through the greedy minimum-distance gate
(`last_cut` starts out `None`, so the first cut is always allowed). -/
def adaptivePostProcess (adaptiveThreshold minDelta : ℚ)
    (minSceneLen w startF endF : Int) (val : Int → ℚ) : List Int :=
  gatedScan minSceneLen none
    ((interiorFrames startF endF w).map
      (fun f => (f, decide (adaptiveRatioOf val w minDelta f ≥ adaptiveThreshold ∧
        val f ≥ minDelta))))

/-- Source: `AdaptiveDetector.metrics` (line 90): the inherited ContentDetector
keys plus the adaptive-ratio key. -/
def adaptiveMetrics (ratioKey : String) : List String :=
  METRIC_KEYS ++ [ratioKey]

/-- State of an `AdaptiveDetector`: the inherited ContentDetector state plus
`_start_time` / `_end_time`. -/
structure ADState (Img : Type) where
  cd : CDState Img
  startTime : Option Int
  endTime : Option Int

/-- Source: `AdaptiveDetector.process_frame` (`adaptive_detector.py`, lines 92-116):
when `is_processing_required` is truthy it runs the inherited
`ContentDetector.process_frame` and DISCARDS any events it returns; it then
records the first and last timecode seen and returns the empty event
list. -/
def AdaptiveDetector.processFrame {Img : Type} (deltas : Img → Img → ℚ × ℚ × ℚ)
    (threshold : ℚ) (minSceneLen : Int) (lumaOnly : Bool) (ratioKey : String)
    (st : ADState Img) (t : Int) (img : Option Img) :
    Except String (ADState Img × List Int) :=
  match is_processing_required (adaptiveMetrics ratioKey) st.cd.sm t with
  | .error e => .error e
  | .ok req =>
    let inner : Except String (CDState Img) :=
      if req then
        match ContentDetector.processFrame deltas threshold minSceneLen lumaOnly
            st.cd t img with
        | .error e => .error e
        | .ok r => .ok r.1
      else .ok st.cd
    match inner with
    | .error e => .error e
    | .ok cd' => .ok (⟨cd', some (st.startTime.getD t), some t⟩, [])

/-! ## Verification of the claims -/
/-- Every scene of a valid scene list satisfies `start < end`. -/
theorem ValidSceneList.start_lt_end :
    ∀ (scenes : List Scene), ValidSceneList scenes → ∀ s ∈ scenes, s.1 < s.2 := by
  intro scenes
  induction scenes with
  | nil => simp
  | cons a l ih =>
    cases l with
    | nil => simp [ValidSceneList, validSceneListB]
    | cons b m =>
      intro h s hs
      simp only [ValidSceneList, validSceneListB, Bool.and_eq_true,
        decide_eq_true_eq] at h
      rcases List.mem_cons.mp hs with hs | hs
      · subst hs; exact h.1.1.1
      · exact ih h.2 s hs

theorem succMerge_length (scene : Scene) (rest : List Scene) :
    (succMerge scene rest).length = rest.length := by
  cases rest <;> simp [succMerge]
/-- All-long scene lists pass through the merge scan untouched: every scene is
appended to the result and the receiver is never written to. -/
theorem mergeGo_all_long (minLen mergeLen : Int) :
    ∀ (l accRev : List Scene), (∀ s ∈ l, minLen ≤ s.2 - s.1) →
      mergeGo minLen mergeLen accRev l = (accRev.reverse ++ l, l) := by
  intro l
  induction l with
  | nil => intro accRev _; simp [mergeGo]
  | cons s l ih =>
    intro accRev h
    rw [mergeGo, if_pos (h s (List.mem_cons_self s l))]
    rw [ih (s :: accRev) (fun x hx => h x (List.mem_cons_of_mem s hx))]
    simp [consSelf]

/-- The merge scan writes to the receiver only by overwriting entries in
place: the final contents of `self` always keeps its length. -/
theorem mergeGo_self_length (minLen mergeLen : Int) :
    ∀ (accRev l : List Scene),
      (mergeGo minLen mergeLen accRev l).2.length = l.length := by
  intro accRev l
  induction accRev, l using mergeGo.induct minLen mergeLen with
  | case1 accRev => simp [mergeGo]
  | case2 accRev scene rest h ih =>
    rw [mergeGo, if_pos h]
    simp [consSelf, ih]
  | case3 accRev scene rest h1 h2 ih =>
    rw [mergeGo, if_neg (by omega), if_pos h2]
    simp [consSelf, ih]
  | case4 accRev scene rest h1 h2 h3 ih =>
    rw [mergeGo, if_neg (by omega), if_neg (by simp [h2]), if_pos h3]
    simp [consSelf, ih, succMerge_length]
  | case5 accRev scene rest h1 h2 h3 ih =>
    rw [mergeGo, if_neg (by omega), if_neg (by simp [h2]), if_neg (by simp [h3])]
    simp [consSelf, ih]

/--
C1 (counterexample): the claim's "successor first" order disagrees with the
code on scenes `[(0,10),(10,12),(12,22)]` with `min_len = 5`, `max_dist = 0`:
`merge_short_scenes` absorbs the short scene `(10,12)` into its predecessor,
giving `[(0,12),(12,22)]`, whereas the successor-first procedure the claim
describes gives `[(0,10),(10,22)]`.
-/
theorem merge_short_scenes_order_counterexample :
    (merge_short_scenes 5 0 [((0:Int),(10:Int)), (10,12), (12,22)]).map Prod.fst
        = .ok [(0,12),(12,22)] ∧
    mergeSpecOrder 5 0 [((0:Int),(10:Int)), (10,12), (12,22)]
        = [(0,10),(10,22)] ∧
    ([((0:Int),(12:Int)), (12,22)] : List Scene) ≠ [(0,10),(10,22)] := by
  refine ⟨?_, ?_, by decide⟩
  · simp +decide [merge_short_scenes, mergeGo, consSelf, Except.map,
      predClose, predMerge, succClose, succMerge]
  · simp +decide [mergeSpecOrder, mergeSpecGo,
      predClose, predMerge, succClose, succMerge]

/--
C1 (amended): for every scene list `[a, b, c]` whose middle scene is shorter
than `min_len` while its neighbours are long enough, the merge scan first
attempts to absorb `b` into its immediate PREDECESSOR when the gap to it is
at most `max_dist` (even if the successor is also close enough), and only
when the predecessor is too far away does it absorb the immediate successor
(by overwriting the successor in place with the combined span).
-/
theorem merge_short_scenes_pred_first (minLen mergeLen : Int)
    (a b c : Scene) (h0 : 0 ≤ minLen) (h1 : 0 ≤ mergeLen)
    (ha : minLen ≤ a.2 - a.1) (hb : b.2 - b.1 < minLen)
    (hc : minLen ≤ c.2 - c.1) (hbc : minLen ≤ c.2 - b.1) :
    (b.1 - a.2 ≤ mergeLen →
      merge_short_scenes minLen mergeLen [a, b, c] =
        .ok ([(a.1, b.2), c], [a, b, c])) ∧
    (mergeLen < b.1 - a.2 → c.1 - b.2 ≤ mergeLen →
      merge_short_scenes minLen mergeLen [a, b, c] =
        .ok ([a, (b.1, c.2)], [a, b, (b.1, c.2)])) := by
  constructor
  · intro hpred
    rw [merge_short_scenes, if_neg (by omega), if_neg (by omega)]
    rw [mergeGo, if_pos ha]
    rw [mergeGo, if_neg (by omega),
      if_pos (show predClose mergeLen [a] b = true by simp [predClose]; omega)]
    simp only [predMerge]
    rw [mergeGo, if_pos hc]
    rw [mergeGo]
    simp [consSelf]
  · intro hpred hsucc
    rw [merge_short_scenes, if_neg (by omega), if_neg (by omega)]
    rw [mergeGo, if_pos ha]
    rw [mergeGo, if_neg (by omega),
      if_neg (show ¬ predClose mergeLen [a] b = true by simp [predClose]; omega),
      if_pos (show succClose mergeLen b [c] = true by simp [succClose]; omega)]
    simp only [succMerge]
    rw [mergeGo, if_pos (show minLen ≤ ((b.1, c.2) : Scene).2 - (b.1, c.2).1 by omega)]
    rw [mergeGo]
    simp [consSelf]

theorem merge_short_scenes_pred_first_witness :
    ((0:Int) ≤ 5 ∧ (0:Int) ≤ 0 ∧ (10:Int) - 10 ≤ 0) ∧
    merge_short_scenes 5 0 [((0:Int),(10:Int)), (10,12), (12,22)] =
      .ok ([(0,12),(12,22)], [(0,10),(10,12),(12,22)]) :=
  ⟨by decide,
    (merge_short_scenes_pred_first 5 0 (0,10) (10,12) (12,22) (by decide)
      (by decide) (by decide) (by decide) (by decide) (by decide)).1 (by decide)⟩

/--
C2 (code bug): on scenes `[(10,20),(30,40),(40,60)]` with `min_len = 11`,
`max_dist = 9`, the short scene `(10,20)` can be merged with neither
neighbour, yet it does NOT appear in the result of `merge_short_scenes`: the
scan simply never appends it (the code's own docstring — "Scenes which are
shorter than min_scene_len but were not merged are unmodified" — and
`test_scene_list.test_merge`, which expects `[(10,20),(30,60)]` here, both
say it must be kept).
-/
theorem merge_short_scenes_drops_unmergeable :
    merge_short_scenes 11 9 [((10:Int),(20:Int)), (30,40), (40,60)] =
      .ok ([(30,60)], [(10,20),(30,40),(30,60)]) ∧
    ((10:Int),(20:Int)) ∉ [((30:Int),(60:Int))] := by
  refine ⟨?_, by decide⟩
  simp +decide [merge_short_scenes, mergeGo, consSelf,
    predClose, predMerge, succClose, succMerge]

/--
C5: `drop_short_scenes` fails with `ValueError` exactly when `min_len < 0`;
for non-negative `min_len` a scene is kept iff `(end - start) + 1 >= min_len`,
and `min_len <= 1` returns the scene list unchanged.
-/
theorem drop_short_scenes_spec (minLen : Int) (scenes : List Scene)
    (hv : ValidSceneList scenes) :
    (minLen < 0 → drop_short_scenes minLen scenes = .error errMinSceneLen) ∧
    (0 ≤ minLen →
      drop_short_scenes minLen scenes =
        .ok (scenes.filter (fun scene => minLen ≤ (scene.2 - scene.1) + 1))) ∧
    (0 ≤ minLen → minLen ≤ 1 → drop_short_scenes minLen scenes = .ok scenes) := by
  refine ⟨fun h => by simp [drop_short_scenes, h], fun h => ?_, fun h h1 => ?_⟩
  · by_cases h1 : minLen ≤ 1
    · have hfilter :
          scenes.filter (fun scene => minLen ≤ (scene.2 - scene.1) + 1) = scenes := by
        refine List.filter_eq_self.mpr (fun s hs => ?_)
        have hlt := ValidSceneList.start_lt_end scenes hv s hs
        simp only [decide_eq_true_eq]
        omega
      simp only [drop_short_scenes]
      rw [if_neg (by omega), if_pos h1, hfilter]
    · simp only [drop_short_scenes]
      rw [if_neg (by omega), if_neg h1]
  · simp only [drop_short_scenes]
    rw [if_neg (by omega), if_pos h1]

theorem drop_short_scenes_spec_witness :
    (ValidSceneList [((0:Int),(5:Int)), (5,9)] ∧ (0:Int) ≤ 1 ∧ (1:Int) ≤ 1) ∧
    drop_short_scenes 1 [((0:Int),(5:Int)), (5,9)] = .ok [(0,5),(5,9)] :=
  ⟨by decide,
    (drop_short_scenes_spec 1 [(0,5),(5,9)] (by decide)).2.2 (by decide) (by decide)⟩

/--
C8 (counterexample): the claim that `merge` leaves the scene list it was
invoked on unchanged fails: on `[(0,2),(10,20)]` with `min_len = 5`,
`max_dist = 8`, the short scene `(0,2)` is absorbed into its successor by
overwriting `self[1]` in place, so the receiver ends as `[(0,2),(0,20)]`,
different from the original.
-/
theorem merge_short_scenes_mutates_counterexample :
    merge_short_scenes 5 8 [((0:Int),(2:Int)), (10,20)] =
      .ok ([(0,20)], [(0,2),(0,20)]) ∧
    ([((0:Int),(2:Int)), (0,20)] : List Scene) ≠ [(0,2),(10,20)] := by
  refine ⟨?_, by decide⟩
  simp +decide [merge_short_scenes, mergeGo, consSelf,
    predClose, predMerge, succClose, succMerge]

/--
C8 (amended): `drop_short_scenes` builds its result afresh (it is a filter of
the input and performs no writes); `merge_short_scenes` also returns a fresh
result list, but it may modify the receiver: a short scene absorbed into its
successor is written into the receiver in place.  The receiver is only
guaranteed unchanged when no successor-merge occurs — in particular, when
every scene is at least `min_len` long the call returns the receiver's
contents unchanged — and any mutation is an in-place overwrite, so the
receiver always keeps its length.
-/
theorem merge_short_scenes_receiver (minLen mergeLen : Int)
    (scenes : List Scene) (h0 : 0 ≤ minLen) (h1 : 0 ≤ mergeLen) :
    ((∀ s ∈ scenes, minLen ≤ s.2 - s.1) →
      merge_short_scenes minLen mergeLen scenes = .ok (scenes, scenes)) ∧
    (merge_short_scenes minLen mergeLen scenes).map (fun r => r.2.length) =
      .ok scenes.length := by
  constructor
  · intro h
    rw [merge_short_scenes, if_neg (by omega), if_neg (by omega)]
    rw [mergeGo_all_long minLen mergeLen scenes [] h]
    simp
  · rw [merge_short_scenes, if_neg (by omega), if_neg (by omega)]
    simp [Except.map, mergeGo_self_length]

theorem merge_short_scenes_receiver_witness :
    ((0:Int) ≤ 3 ∧ (0:Int) ≤ 2) ∧
    merge_short_scenes 3 2 [((0:Int),(5:Int)), (6,11)] = .ok ([(0,5),(6,11)], [(0,5),(6,11)]) :=
  ⟨by decide,
    (merge_short_scenes_receiver 3 2 [(0,5),(6,11)] (by decide) (by decide)).1
      (by decide)⟩

/--
C9: for non-negative `k`, `drop_short_scenes k` is idempotent, and
`drop_short_scenes 0` / `drop_short_scenes 1` return the scene list
unchanged.
-/
theorem drop_short_scenes_idem (k : Int) (scenes : List Scene) (hk : 0 ≤ k) :
    (drop_short_scenes k scenes).bind (drop_short_scenes k) =
      drop_short_scenes k scenes ∧
    drop_short_scenes 0 scenes = .ok scenes ∧
    drop_short_scenes 1 scenes = .ok scenes := by
  refine ⟨?_, by simp [drop_short_scenes], by simp [drop_short_scenes]⟩
  by_cases h1 : k ≤ 1
  · have e : drop_short_scenes k scenes = .ok scenes := by
      simp only [drop_short_scenes]
      rw [if_neg (by omega), if_pos h1]
    rw [e]
    exact e
  · have hff :
        (scenes.filter (fun scene => k ≤ (scene.2 - scene.1) + 1)).filter
            (fun scene => k ≤ (scene.2 - scene.1) + 1) =
          scenes.filter (fun scene => k ≤ (scene.2 - scene.1) + 1) :=
      List.filter_eq_self.mpr (fun s hs => (List.mem_filter.mp hs).2)
    have e : drop_short_scenes k scenes =
        .ok (scenes.filter (fun scene => k ≤ (scene.2 - scene.1) + 1)) := by
      simp only [drop_short_scenes]
      rw [if_neg (by omega), if_neg h1]
    have e2 : drop_short_scenes k
          (scenes.filter (fun scene => k ≤ (scene.2 - scene.1) + 1)) =
        .ok (scenes.filter (fun scene => k ≤ (scene.2 - scene.1) + 1)) := by
      simp only [drop_short_scenes]
      rw [if_neg (by omega), if_neg h1, hff]
    rw [e]
    exact e2

theorem drop_short_scenes_idem_witness :
    (0:Int) ≤ 2 ∧
    ((drop_short_scenes 2 [((0:Int),(1:Int)), (5,9)]).bind (drop_short_scenes 2) =
        drop_short_scenes 2 [((0:Int),(1:Int)), (5,9)] ∧
      drop_short_scenes 0 [((0:Int),(1:Int)), (5,9)] = .ok [(0,1),(5,9)] ∧
      drop_short_scenes 1 [((0:Int),(1:Int)), (5,9)] = .ok [(0,1),(5,9)]) :=
  ⟨by decide, drop_short_scenes_idem 2 [(0,1),(5,9)] (by decide)⟩


theorem chain'_lt_drop_middle {c t : Int} {r : List Int}
    (h : List.Chain' (· < ·) (c :: t :: r)) : List.Chain' (· < ·) (c :: r) := by
  cases r with
  | nil => simp
  | cons u r =>
    have h1 : c < t := (List.chain'_cons.mp h).1
    have h2 := (List.chain'_cons.mp h).2
    have h3 : t < u := (List.chain'_cons.mp h2).1
    have h4 := (List.chain'_cons.mp h2).2
    exact List.chain'_cons.mpr ⟨lt_trans h1 h3, h4⟩

/-- One step of `ContentDetector.process_frame` with no stats manager bound,
a stored previous frame, and a frame image supplied: the score is computed
fresh and a cut is emitted iff it reaches the threshold and the gate against
`_last_scene_cut` passes. -/
theorem processFrame_no_sm {Img : Type} (deltas : Img → Img → ℚ × ℚ × ℚ)
    (threshold : ℚ) (minSceneLen : Int) (lumaOnly : Bool)
    (lv i : Img) (c t : Int) (hct : c ≤ t) :
    ContentDetector.processFrame deltas threshold minSceneLen lumaOnly
        ⟨none, some (some lv), some c⟩ t (some i) =
      .ok (⟨none, some (some i),
            some (if decide (scoreOf deltas lumaOnly i lv ≥ threshold) &&
                decide (t - c ≥ minSceneLen) then t else c)⟩,
        if decide (scoreOf deltas lumaOnly i lv ≥ threshold) &&
            decide (t - c ≥ minSceneLen) then [t] else []) := by
  simp only [ContentDetector.processFrame, getCachedScore, finalLastHsv,
    calculate_frame_score, scoreOf, Option.map]
  simp only [if_neg (show ¬ c > t by omega)]

/-- Unfolding a run with no stats manager from a mid-stream state: the
events are exactly the gated scan of the scored candidates. -/
theorem run_no_sm {Img : Type} (deltas : Img → Img → ℚ × ℚ × ℚ)
    (threshold : ℚ) (minSceneLen : Int) (lumaOnly : Bool) :
    ∀ (fs : List (Int × Img)) (lv : Img) (c : Int),
      List.Chain' (· < ·) (c :: fs.map Prod.fst) →
      (ContentDetector.run deltas threshold minSceneLen lumaOnly
          ⟨none, some (some lv), some c⟩ fs).map Prod.snd =
        .ok (gatedScan minSceneLen (some c)
          (scoredCands deltas lumaOnly threshold lv fs)) := by
  intro fs
  induction fs with
  | nil =>
    intro lv c _
    simp [ContentDetector.run, gatedScan, scoredCands, Except.map]
  | cons p fs ih =>
    obtain ⟨t, i⟩ := p
    intro lv c h
    have hct : c ≤ t := le_of_lt (List.chain'_cons.mp (by simpa using h)).1
    rw [ContentDetector.run,
      processFrame_no_sm deltas threshold minSceneLen lumaOnly lv i c t hct]
    simp only [scoredCands, gatedScan, gateOpen]
    by_cases hcut : (decide (scoreOf deltas lumaOnly i lv ≥ threshold) &&
        decide (t - c ≥ minSceneLen)) = true
    · simp only [if_pos hcut]
      have hchain : List.Chain' (· < ·) (t :: fs.map Prod.fst) :=
        (List.chain'_cons.mp (by simpa using h)).2
      have hrun := ih i t hchain
      cases he : ContentDetector.run deltas threshold minSceneLen lumaOnly
          ⟨none, some (some i), some t⟩ fs with
      | error e => rw [he] at hrun; simp [Except.map] at hrun
      | ok pr =>
        rw [he] at hrun
        simp only [Except.map] at hrun ⊢
        simpa using hrun
    · simp only [if_neg hcut]
      have hchain : List.Chain' (· < ·) (c :: fs.map Prod.fst) :=
        chain'_lt_drop_middle (by simpa using h)
      have hrun := ih i c hchain
      cases he : ContentDetector.run deltas threshold minSceneLen lumaOnly
          ⟨none, some (some i), some c⟩ fs with
      | error e => rw [he] at hrun; simp [Except.map] at hrun
      | ok pr =>
        rw [he] at hrun
        simp only [Except.map] at hrun ⊢
        simpa using hrun

/--
C3 (code bug): `is_processing_required`, as written, never consults
`metrics_exist`.  With the (non-empty) ContentDetector metric list: for EVERY
bound stats manager and every frame it returns truthy (the claim and the
function's own docstring say it must return `False` when every metric is
cached); with no stats manager bound it raises `AttributeError` (the
docstring says "Always True if there is no StatsManager").  The third
conjunct exhibits the failing input: a cache holding every metric for
frame 0 still yields a truthy result.
-/
theorem is_processing_required_bug :
    (∀ (c : Cache) (f : Int),
        is_processing_required METRIC_KEYS (some c) f = .ok true) ∧
    (∀ f : Int,
        is_processing_required METRIC_KEYS none f = .error errNoneMetricsExist) ∧
    metricsExist [(0, FRAME_SCORE_KEY, 10), (0, DELTA_H_KEY, 10),
        (0, DELTA_S_KEY, 10), (0, DELTA_V_KEY, 10)] 0 METRIC_KEYS = true ∧
    is_processing_required METRIC_KEYS
        (some [(0, FRAME_SCORE_KEY, 10), (0, DELTA_H_KEY, 10),
          (0, DELTA_S_KEY, 10), (0, DELTA_V_KEY, 10)]) 0 = .ok true :=
  ⟨fun _ _ => rfl, fun _ => rfl, rfl, rfl⟩

/--
C4 (counterexample): with threshold 30 and `min_scene_len` 15, a two-frame
run whose second frame scores 100 emits NO cut (the gate measures from the
first processed frame: `1 - 0 < 15`), while the claim's rule — "first cut
always allowed" — demands a cut at frame 1.
-/
theorem contentDetector_first_cut_counterexample :
    (ContentDetector.run (fun _ _ : Unit => ((100:ℚ), 100, 100)) 30 15 false
        ⟨none, none, none⟩ [(0, ()), (1, ())]).map Prod.snd = .ok [] ∧
    claimContentCuts (fun _ _ : Unit => ((100:ℚ), 100, 100)) false 30 15
        [(0, ()), (1, ())] = [1] ∧
    (Except.ok ([] : List Int) : Except String (List Int)) ≠ .ok [1] := by
  refine ⟨?_, ?_, by simp⟩
  · simp +decide [ContentDetector.run, ContentDetector.processFrame,
      finalLastHsv, getCachedScore, calculate_frame_score, Except.map]
  · norm_num [claimContentCuts, scoredCands, gatedScan, gateOpen, scoreOf]

/--
C4 (amended): for every frame sequence processed in increasing order by a
`ContentDetector` with no stats manager bound, a CUT is emitted at a frame
iff its score is at or above the threshold AND at least `min_scene_len`
frames have elapsed since the reference point, where the reference point is
the previously emitted cut or — before any cut — the FIRST PROCESSED FRAME
(the first cut is NOT exempt from the gate).
-/
theorem contentDetector_cut_rule {Img : Type} (deltas : Img → Img → ℚ × ℚ × ℚ)
    (threshold : ℚ) (minSceneLen : Int) (lumaOnly : Bool)
    (frames : List (Int × Img))
    (hmono : List.Chain' (· < ·) (frames.map Prod.fst)) :
    (ContentDetector.run deltas threshold minSceneLen lumaOnly
        ⟨none, none, none⟩ frames).map Prod.snd =
      .ok (amendedContentCuts deltas lumaOnly threshold minSceneLen frames) := by
  cases frames with
  | nil => simp [ContentDetector.run, amendedContentCuts, Except.map]
  | cons p fs =>
    obtain ⟨t0, i0⟩ := p
    have hpf : ContentDetector.processFrame deltas threshold minSceneLen lumaOnly
        ⟨none, none, none⟩ t0 (some i0) =
          .ok (⟨none, some (some i0), some t0⟩, []) := rfl
    rw [ContentDetector.run, hpf]
    dsimp only
    have hrun := run_no_sm deltas threshold minSceneLen lumaOnly fs i0 t0
      (by simpa using hmono)
    cases he : ContentDetector.run deltas threshold minSceneLen lumaOnly
        ⟨none, some (some i0), some t0⟩ fs with
    | error e => rw [he] at hrun; simp [Except.map] at hrun
    | ok pr =>
      rw [he] at hrun
      obtain ⟨stF, rest⟩ := pr
      simp only [Except.map, amendedContentCuts] at hrun ⊢
      simpa using hrun

theorem contentDetector_cut_rule_witness :
    List.Chain' (· < ·) (([((0:Int), ()), (20, ())]).map Prod.fst) ∧
    (ContentDetector.run (fun _ _ : Unit => ((100:ℚ), 100, 100)) 30 15 false
        ⟨none, none, none⟩ [(0, ()), (20, ())]).map Prod.snd =
      .ok (amendedContentCuts (fun _ _ : Unit => ((100:ℚ), 100, 100)) false 30 15
        [(0, ()), (20, ())]) :=
  ⟨by simp, contentDetector_cut_rule (fun _ _ : Unit => ((100:ℚ), 100, 100))
    30 15 false [(0, ()), (20, ())] (by simp)⟩


theorem thresholdDetector_step (threshold t : Int) (a b : ℚ) :
    ThresholdDetector.processFrame threshold ⟨some a⟩ t b =
      (⟨some b⟩, crossingEvent threshold (0, a) (t, b)) := by
  simp only [ThresholdDetector.processFrame, crossingEvent]
  split_ifs <;> rfl

theorem thresholdDetector_run_from (threshold : Int) :
    ∀ (fs : List (Int × ℚ)) (a : ℚ) (prevT : Int),
      (ThresholdDetector.run threshold ⟨some a⟩ fs).2 =
        crossingEvents threshold ((prevT, a) :: fs) := by
  intro fs
  induction fs with
  | nil => intro a prevT; simp [ThresholdDetector.run, crossingEvents]
  | cons q fs ih =>
    obtain ⟨t, b⟩ := q
    intro a prevT
    rw [ThresholdDetector.run, thresholdDetector_step threshold t a b]
    dsimp only
    rw [ih b t]
    simp [crossingEvents, crossingEvent]

/--
C7: for every frame sequence, the events of a `ThresholdDetector` run are
exactly one `IN` per rising crossing (previous mean below the threshold,
current at or above) and one `OUT` per falling crossing of consecutive
frames, in order — no event on the first processed frame and no
minimum-distance gating.
-/
theorem thresholdDetector_crossings (threshold : Int)
    (frames : List (Int × ℚ)) :
    (ThresholdDetector.run threshold ⟨none⟩ frames).2 =
      crossingEvents threshold frames := by
  cases frames with
  | nil => simp [ThresholdDetector.run, crossingEvents]
  | cons p fs =>
    obtain ⟨t0, a0⟩ := p
    rw [ThresholdDetector.run]
    simp only [ThresholdDetector.processFrame]
    rw [thresholdDetector_run_from threshold fs a0 t0]
    simp

/-! ## Properties of the gated scan -/

theorem gatedScan_subset (msl : Int) :
    ∀ (l : List (Int × Bool)) (l0 : Option Int) (f : Int),
      f ∈ gatedScan msl l0 l → (f, true) ∈ l := by
  intro l
  induction l with
  | nil => intro l0 f h; simp [gatedScan] at h
  | cons a l ih =>
    obtain ⟨fa, ca⟩ := a
    intro l0 f h
    rw [gatedScan] at h
    by_cases hemit : (ca && gateOpen msl l0 fa) = true
    · rw [if_pos hemit] at h
      rcases List.mem_cons.mp h with h | h
      · obtain ⟨hca, -⟩ : ca = true ∧ gateOpen msl l0 fa = true := by
          simpa using hemit
        subst hca
        subst h
        exact List.mem_cons_self _ _
      · exact List.mem_cons_of_mem _ (ih (some fa) f h)
    · rw [if_neg hemit] at h
      exact List.mem_cons_of_mem _ (ih l0 f h)

theorem lastBefore_none (f : Int) :
    ∀ (l : List Int), (∀ g ∈ l, ¬ g < f) → lastBefore f l = none := by
  intro l
  induction l with
  | nil => intro _; rfl
  | cons g gs ih =>
    intro h
    rw [lastBefore, if_neg (h g (List.mem_cons_self g gs))]
    exact ih (fun x hx => h x (List.mem_cons_of_mem g hx))

theorem lastBefore_cons_lt (f a : Int) (gs : List Int) (h : a < f) :
    lastBefore f (a :: gs) = some ((lastBefore f gs).getD a) := by
  rw [lastBefore, if_pos h]
  cases lastBefore f gs <;> simp

theorem gateFrom_cons (msl : Int) (l0 : Option Int) (a f : Int)
    (cuts : List Int) (ha : a < f) :
    gateFrom msl l0 (a :: cuts) f ↔ gateFrom msl (some a) cuts f := by
  simp only [gateFrom, lastBefore_cons_lt f a cuts ha]
  cases h : lastBefore f cuts with
  | some g => simp
  | none => simp

theorem gateFrom_no_cut_before (msl : Int) (l0 : Option Int) (cuts : List Int)
    (f : Int) (hall : ∀ g ∈ cuts, ¬ g < f) :
    gateFrom msl l0 cuts f ↔ ∀ g, l0 = some g → f - g ≥ msl := by
  simp only [gateFrom, lastBefore_none f cuts hall]

theorem gatedScan_all_false (msl : Int) :
    ∀ (l : List (Int × Bool)) (l0 : Option Int),
      (∀ p ∈ l, p.2 = false) → gatedScan msl l0 l = [] := by
  intro l
  induction l with
  | nil => intro l0 _; rfl
  | cons a l ih =>
    obtain ⟨fa, ca⟩ := a
    intro l0 h
    have hca : ca = false := h (fa, ca) (List.mem_cons_self _ _)
    subst hca
    rw [gatedScan, if_neg (by simp)]
    exact ih l0 (fun p hp => h p (List.mem_cons_of_mem _ hp))

/-- Membership characterization of the gated scan over strictly increasing
candidate frames: a frame is emitted iff it is a `true` candidate and the
minimum-distance gate against the last emitted cut before it (or the initial
reference point, if none) passes. -/
theorem gatedScan_mem (msl : Int) :
    ∀ (l : List (Int × Bool)) (l0 : Option Int),
      List.Pairwise (fun a b : Int × Bool => a.1 < b.1) l →
      (∀ g, l0 = some g → ∀ p ∈ l, g < p.1) →
      ∀ f, f ∈ gatedScan msl l0 l ↔
        ((f, true) ∈ l ∧ gateFrom msl l0 (gatedScan msl l0 l) f) := by
  intro l
  induction l with
  | nil =>
    intro l0 _ _ f
    simp [gatedScan]
  | cons a l ih =>
    obtain ⟨fa, ca⟩ := a
    intro l0 hpw hl0 f
    have hfa_lt : ∀ p ∈ l, fa < p.1 := fun p hp => (List.pairwise_cons.mp hpw).1 p hp
    have hpw' := (List.pairwise_cons.mp hpw).2
    by_cases hemit : (ca && gateOpen msl l0 fa) = true
    · -- the head frame is emitted
      obtain ⟨hca, hgate0⟩ : ca = true ∧ gateOpen msl l0 fa = true := by
        simpa using hemit
      have hgate : ∀ g, l0 = some g → fa - g ≥ msl := by
        intro g hg
        have h2 := hgate0
        rw [hg] at h2
        simpa [gateOpen] using h2
      rw [gatedScan, if_pos hemit]
      have hsub : ∀ x ∈ gatedScan msl (some fa) l, fa < x := fun x hx =>
        hfa_lt _ (gatedScan_subset msl l (some fa) x hx)
      by_cases hf : f = fa
      · subst hf
        have hlb : ∀ g ∈ f :: gatedScan msl (some f) l, ¬ g < f := by
          intro g hg
          rcases List.mem_cons.mp hg with hg | hg
          · omega
          · have := hsub g hg; omega
        constructor
        · intro _
          refine ⟨by rw [hca]; exact List.mem_cons_self _ _, ?_⟩
          rw [gateFrom_no_cut_before msl l0 _ f hlb]
          exact hgate
        · intro _
          exact List.mem_cons_self _ _
      · have hl0' : ∀ g, (some fa : Option Int) = some g → ∀ p ∈ l, g < p.1 := by
          intro g hg p hp
          cases hg
          exact hfa_lt p hp
        have hIH := ih (some fa) hpw' hl0' f
        by_cases hmem : (f, true) ∈ l
        · have hfalt : fa < f := hfa_lt (f, true) hmem
          have hgc := gateFrom_cons msl l0 fa f (gatedScan msl (some fa) l) hfalt
          constructor
          · intro h
            rcases List.mem_cons.mp h with h | h
            · exact absurd h hf
            · have h2 := hIH.mp h
              exact ⟨List.mem_cons_of_mem _ h2.1, hgc.mpr h2.2⟩
          · rintro ⟨hm, hg⟩
            rcases List.mem_cons.mp hm with hm | hm
            · simp only [Prod.mk.injEq] at hm
              exact absurd hm.1 hf
            · exact List.mem_cons_of_mem _ (hIH.mpr ⟨hm, hgc.mp hg⟩)
        · constructor
          · intro h
            rcases List.mem_cons.mp h with h | h
            · exact absurd h hf
            · exact absurd (gatedScan_subset msl l (some fa) f h) hmem
          · rintro ⟨hm, _⟩
            rcases List.mem_cons.mp hm with hm | hm
            · simp only [Prod.mk.injEq] at hm
              exact absurd hm.1 hf
            · exact absurd hm hmem
    · -- the head frame is not emitted
      rw [gatedScan, if_neg hemit]
      have hl0' : ∀ g, l0 = some g → ∀ p ∈ l, g < p.1 := fun g hg p hp =>
        hl0 g hg p (List.mem_cons_of_mem _ hp)
      have hIH := ih l0 hpw' hl0' f
      have hsub : ∀ x ∈ gatedScan msl l0 l, fa < x := fun x hx =>
        hfa_lt _ (gatedScan_subset msl l l0 x hx)
      by_cases hf : f = fa
      · subst hf
        have hlb : ∀ g ∈ gatedScan msl l0 l, ¬ g < f := by
          intro g hg
          have := hsub g hg; omega
        constructor
        · intro h
          have := hfa_lt _ (gatedScan_subset msl l l0 f h)
          omega
        · rintro ⟨hm, hg⟩
          rcases List.mem_cons.mp hm with hm | hm
          · simp only [Prod.mk.injEq] at hm
            have hca : ca = true := hm.2.symm
            rw [gateFrom_no_cut_before msl l0 _ f hlb] at hg
            cases hl0c : l0 with
            | none => rw [hca, hl0c] at hemit; simp [gateOpen] at hemit
            | some g0 =>
              have := hg g0 hl0c
              rw [hca, hl0c] at hemit
              simp only [gateOpen, Bool.true_and, decide_eq_true_eq] at hemit
              exact absurd this hemit
          · have := hfa_lt _ hm
            omega
      · constructor
        · intro h
          have h2 := hIH.mp h
          exact ⟨List.mem_cons_of_mem _ h2.1, h2.2⟩
        · rintro ⟨hm, hg⟩
          rcases List.mem_cons.mp hm with hm | hm
          · simp only [Prod.mk.injEq] at hm
            exact absurd hm.1 hf
          · exact hIH.mpr ⟨hm, hg⟩

theorem intRange_pairwise (a b : Int) :
    List.Pairwise (· < ·) (intRange a b) := by
  unfold intRange
  refine (List.pairwise_map (f := fun k : ℕ => a + (k : Int))).mpr ?_
  refine (List.pairwise_lt_range _).imp ?_
  intro x y hxy
  dsimp only
  omega

/--
C6: in `AdaptiveDetector.post_process`, (1) whenever the window mean is
numerically zero (`abs < 0.00001`), the frame's adaptive ratio is the
sentinel `255.0` if the frame's own score is at least `min_delta_hsv` and
`0.0` otherwise; (2) a CUT is emitted at a frame iff it is an interior
frame, its ratio is at or above `adaptive_threshold`, its raw score is at or
above `min_delta_hsv`, and the minimum-distance gate since the last emitted
cut passes; (3) a flat score sequence below `min_delta_hsv` never produces a
cut.
-/
theorem adaptiveDetector_post_process_spec (ath minDelta : ℚ)
    (msl w startF endF : Int) (val : Int → ℚ) (cval : ℚ) (hw : 0 < w) :
    (∀ f, denomIsZero val w f = true →
        adaptiveRatioOf val w minDelta f =
          if val f ≥ minDelta then 255 else 0) ∧
    (∀ f, f ∈ adaptivePostProcess ath minDelta msl w startF endF val ↔
        (f ∈ interiorFrames startF endF w ∧
          adaptiveRatioOf val w minDelta f ≥ ath ∧ val f ≥ minDelta ∧
          gateFrom msl none
            (adaptivePostProcess ath minDelta msl w startF endF val) f)) ∧
    ((∀ f, val f = cval) → cval < minDelta →
        adaptivePostProcess ath minDelta msl w startF endF val = []) := by
  refine ⟨?_, ?_, ?_⟩
  · intro f h
    rw [adaptiveRatioOf, h]
    simp
  · intro f
    have hpw : List.Pairwise (fun p q : Int × Bool => p.1 < q.1)
        ((interiorFrames startF endF w).map
          (fun x => (x, decide (adaptiveRatioOf val w minDelta x ≥ ath ∧
            val x ≥ minDelta)))) := by
      refine List.pairwise_map.mpr ?_
      exact (intRange_pairwise _ _).imp (fun h => h)
    have hmem := gatedScan_mem msl _ none hpw (by intro g hg; cases hg) f
    simp only [adaptivePostProcess]
    rw [hmem]
    simp only [List.mem_map, Prod.mk.injEq, decide_eq_true_eq]
    constructor
    · rintro ⟨⟨x, hx, hxf, hc⟩, hg⟩
      subst hxf
      exact ⟨hx, hc.1, hc.2, hg⟩
    · rintro ⟨hx, h1, h2, hg⟩
      exact ⟨⟨f, hx, rfl, h1, h2⟩, hg⟩
  · intro hflat hlt
    rw [adaptivePostProcess]
    apply gatedScan_all_false
    intro p hp
    simp only [List.mem_map] at hp
    obtain ⟨x, hx, hxp⟩ := hp
    rw [← hxp]
    simp only [decide_eq_false_iff_not]
    rintro ⟨-, h2⟩
    rw [hflat x] at h2
    exact absurd h2 (not_le.mpr hlt)

theorem adaptiveDetector_post_process_spec_witness :
    ((0:Int) < 2 ∧ (0:ℚ) < 15) ∧
    adaptivePostProcess 3 15 15 2 0 11 (fun _ => (0:ℚ)) = [] :=
  ⟨⟨by decide, by decide⟩,
    (adaptiveDetector_post_process_spec 3 15 15 2 0 11 (fun _ => (0:ℚ)) 0
      (by decide)).2.2 (fun _ => rfl) (by decide)⟩

/--
C10: `AdaptiveDetector.process_frame` never emits an event: for every state,
timecode and frame image (or `None`), whenever the call returns at all (an
unbound stats manager or a missing required image raises instead), the
returned event list is empty — every CUT of the adaptive detector comes from
`post_process` alone.
-/
theorem adaptiveDetector_process_frame_no_events {Img : Type}
    (deltas : Img → Img → ℚ × ℚ × ℚ) (threshold : ℚ) (minSceneLen : Int)
    (lumaOnly : Bool) (ratioKey : String) (st : ADState Img) (t : Int)
    (img : Option Img) :
    (AdaptiveDetector.processFrame deltas threshold minSceneLen lumaOnly
        ratioKey st t img).map Prod.snd =
      (AdaptiveDetector.processFrame deltas threshold minSceneLen lumaOnly
        ratioKey st t img).map (fun _ => ([] : List Int)) := by
  cases hreq : is_processing_required (adaptiveMetrics ratioKey) st.cd.sm t with
  | error e => simp [AdaptiveDetector.processFrame, hreq, Except.map]
  | ok req =>
    cases req with
    | false => simp [AdaptiveDetector.processFrame, hreq, Except.map]
    | true =>
      cases hcd : ContentDetector.processFrame deltas threshold minSceneLen
          lumaOnly st.cd t img with
      | error e => simp [AdaptiveDetector.processFrame, hreq, hcd, Except.map]
      | ok r => simp [AdaptiveDetector.processFrame, hreq, hcd, Except.map]
